import Mathlib

/-!
Shallow embedding of the HTTP transport layer of the gitbeaker repository
(`packages/rest/src/Requester.ts`): option resolution (`defaultOptionsHandler`),
response-body decoding (`processBody`), response parsing (`parseResponse`),
error normalization (`throwFailedRequestError`), conditional request mode
(`getConditionalMode`) and the retrying request executor
(`defaultRequestHandler`).

The source is TypeScript running on the WHATWG fetch / URL / JSON platform.
Platform primitives used by the source (`String.prototype.includes`,
`JSON.parse`, `JSON.stringify`, header lookup, URL resolution) are modelled
below following their standard semantics, restricted to the forms of input
the transport actually handles (e.g. URL dot-segment normalization and
percent-encoding are not modelled; none of the inputs considered use them).
-/

/-! ## JavaScript string primitives -/

/-- Substring test on character lists: does `pat` occur contiguously? -/
def listHasSub (pat : List Char) : List Char → Bool
  | [] => pat.isEmpty
  | c :: rest => pat.isPrefixOf (c :: rest) || listHasSub pat rest

/-- `s.includes(pat)` of JavaScript: substring containment. -/
def jsIncludes (s pat : String) : Bool :=
  listHasSub pat.toList s.toList

/-- `pre.isPrefixOf s` on the underlying characters (structurally
recursive, unlike the iterator-based core variant). -/
def strStartsWith (s pre : String) : Bool :=
  pre.toList.isPrefixOf s.toList

/-- Suffix test on the underlying characters. -/
def strEndsWith (s suf : String) : Bool :=
  suf.toList.isSuffixOf s.toList

/-- Drop the first `n` characters. -/
def strDropChars (n : Nat) (s : String) : String :=
  String.mk (s.toList.drop n)

/-- Character-wise lowercasing. -/
def lowerStr (s : String) : String :=
  String.mk (s.toList.map Char.toLower)

/-- The characters JavaScript trimming removes. -/
def isJsTrimChar (c : Char) : Bool :=
  c = ' ' || c = '\t' || c = '\n' || c = '\r' || c = '\x0b' || c = '\x0c'

/-- `s.trim()`: remove leading and trailing whitespace. -/
def jsTrim (s : String) : String :=
  String.mk (((s.toList.dropWhile isJsTrimChar).reverse.dropWhile isJsTrimChar).reverse)

/-- Split a character list at the first character satisfying `p`:
returns the part before, and (when found) the matching character with the rest. -/
def splitAtFirst (p : Char → Bool) : List Char → List Char × Option (Char × List Char)
  | [] => ([], none)
  | c :: rest =>
    if p c then ([], some (c, rest))
    else
      let (pre, found) := splitAtFirst p rest
      (c :: pre, found)

/-! ## JSON values (results of `JSON.parse`) -/

/-- A JavaScript value produced by `JSON.parse`. Numbers are represented
exactly as rationals (every JSON numeral denotes a decimal rational). -/
inductive Json where
  | null : Json
  | bool (b : Bool) : Json
  | num (q : ℚ) : Json
  | str (s : String) : Json
  | arr (elems : List Json) : Json
  | obj (fields : List (String × Json)) : Json

/-- JavaScript truthiness of a `JSON.parse` result: `null`, `false`, `0`
and `""` are falsy; every other parse result (all objects and arrays
included) is truthy. -/
def Json.truthy : Json → Bool
  | .null => false
  | .bool b => b
  | .num q => q != 0
  | .str s => s != ""
  | .arr _ => true
  | .obj _ => true

/-- JavaScript property read `v.key` on a parse result: objects yield the
last binding of the key (`JSON.parse` keeps the last duplicate), anything
else (or a missing key) yields `undefined` (here `none`). -/
def jsGetField (v : Json) (key : String) : Option Json :=
  match v with
  | .obj fields => fields.reverse.lookup key
  | _ => none

/-- JavaScript `a || b` on possibly-`undefined` parse results: the left
operand when truthy, otherwise the right. -/
def jsOr (a b : Option Json) : Option Json :=
  match a with
  | some v => if v.truthy then some v else b
  | none => b

/-! ## `JSON.parse`, modelled as a fuel-indexed recursive-descent parser. -/

/-- JSON whitespace. -/
def isJsonWs (c : Char) : Bool :=
  c = ' ' || c = '\t' || c = '\n' || c = '\r'

/-- Drop leading JSON whitespace. -/
def skipWs : List Char → List Char
  | [] => []
  | c :: rest => if isJsonWs c then skipWs rest else c :: rest

/-- Hex digit value, if any. -/
def hexVal (c : Char) : Option Nat :=
  if '0' ≤ c ∧ c ≤ '9' then some (c.toNat - '0'.toNat)
  else if 'a' ≤ c ∧ c ≤ 'f' then some (c.toNat - 'a'.toNat + 10)
  else if 'A' ≤ c ∧ c ≤ 'F' then some (c.toNat - 'A'.toNat + 10)
  else none

/-- Parse the body of a JSON string literal (the opening quote already
consumed), handling the escape sequences of the JSON grammar. -/
def parseStrBody : Nat → List Char → Option (List Char × List Char)
  | 0, _ => none
  | _, [] => none
  | fuel + 1, c :: rest =>
    if c = '"' then some ([], rest)
    else if c = '\\' then
      match rest with
      | [] => none
      | e :: rest' =>
        let esc : Option (Char × List Char) :=
          if e = '"' then some ('"', rest')
          else if e = '\\' then some ('\\', rest')
          else if e = '/' then some ('/', rest')
          else if e = 'b' then some ('\x08', rest')
          else if e = 'f' then some ('\x0c', rest')
          else if e = 'n' then some ('\n', rest')
          else if e = 'r' then some ('\r', rest')
          else if e = 't' then some ('\t', rest')
          else if e = 'u' then
            match rest' with
            | h1 :: h2 :: h3 :: h4 :: rest'' =>
              match hexVal h1, hexVal h2, hexVal h3, hexVal h4 with
              | some v1, some v2, some v3, some v4 =>
                some (Char.ofNat (((v1 * 16 + v2) * 16 + v3) * 16 + v4), rest'')
              | _, _, _, _ => none
            | _ => none
          else none
        match esc with
        | none => none
        | some (ch, after) =>
          match parseStrBody fuel after with
          | none => none
          | some (cs, rem) => some (ch :: cs, rem)
    else
      match parseStrBody fuel rest with
      | none => none
      | some (cs, rem) => some (c :: cs, rem)

/-- Take leading decimal digits. -/
def takeDigits : List Char → List Char × List Char
  | [] => ([], [])
  | c :: rest =>
    if '0' ≤ c ∧ c ≤ '9' then
      let (ds, rem) := takeDigits rest
      (c :: ds, rem)
    else ([], c :: rest)

/-- Numeric value of a digit list. -/
def digitsToNat (ds : List Char) : Nat :=
  ds.foldl (fun acc c => acc * 10 + (c.toNat - '0'.toNat)) 0

/-- Parse a JSON numeral: optional minus, integer part, optional fraction,
optional exponent; its exact rational value. -/
def parseNumber (cs : List Char) : Option (Json × List Char) :=
  let (neg, cs₁) :=
    match cs with
    | '-' :: rest => (true, rest)
    | _ => (false, cs)
  let (intDs, cs₂) := takeDigits cs₁
  if intDs.isEmpty then none
  else
    let (fracDs, cs₃) :=
      match cs₂ with
      | '.' :: rest =>
        let (ds, rem) := takeDigits rest
        (ds, if ds.isEmpty then cs₂ else rem)
      | _ => ([], cs₂)
    if (match cs₂ with | '.' :: _ => fracDs.isEmpty | _ => false) then none
    else
      let (expVal, cs₄) :=
        match cs₃ with
        | e :: rest =>
          if e = 'e' ∨ e = 'E' then
            let (sgn, rest') :=
              match rest with
              | '+' :: r => ((1 : Int), r)
              | '-' :: r => ((-1 : Int), r)
              | _ => ((1 : Int), rest)
            let (eds, rem) := takeDigits rest'
            if eds.isEmpty then ((0 : Int), cs₃)
            else (sgn * (digitsToNat eds : Int), rem)
          else ((0 : Int), cs₃)
        | [] => ((0 : Int), cs₃)
      let mantissa : ℚ :=
        (digitsToNat intDs : ℚ) + (digitsToNat fracDs : ℚ) / (10 : ℚ) ^ fracDs.length
      let value : ℚ := (if neg then -mantissa else mantissa) * (10 : ℚ) ^ expVal
      some (.num value, cs₄)

mutual

/-- Parse one JSON value (leading whitespace allowed). -/
def parseVal : Nat → List Char → Option (Json × List Char)
  | 0, _ => none
  | fuel + 1, cs =>
    match skipWs cs with
    | [] => none
    | 'n' :: 'u' :: 'l' :: 'l' :: rest => some (.null, rest)
    | 't' :: 'r' :: 'u' :: 'e' :: rest => some (.bool true, rest)
    | 'f' :: 'a' :: 'l' :: 's' :: 'e' :: rest => some (.bool false, rest)
    | '"' :: rest =>
      match parseStrBody (fuel + 1) rest with
      | none => none
      | some (cs', rem) => some (.str (String.mk cs'), rem)
    | '[' :: rest =>
      (match skipWs rest with
       | ']' :: rem => some (.arr [], rem)
       | other =>
         match parseArrItems fuel other with
         | none => none
         | some (xs, rem) => some (.arr xs, rem))
    | '{' :: rest =>
      (match skipWs rest with
       | '}' :: rem => some (.obj [], rem)
       | other =>
         match parseObjItems fuel other with
         | none => none
         | some (fs, rem) => some (.obj fs, rem))
    | other => parseNumber other

/-- Parse the items of a non-empty JSON array, up to and including `]`. -/
def parseArrItems : Nat → List Char → Option (List Json × List Char)
  | 0, _ => none
  | fuel + 1, cs =>
    match parseVal fuel cs with
    | none => none
    | some (v, rem) =>
      match skipWs rem with
      | ',' :: rest =>
        (match parseArrItems fuel rest with
         | none => none
         | some (xs, rem') => some (v :: xs, rem'))
      | ']' :: rest => some ([v], rest)
      | _ => none

/-- Parse the members of a non-empty JSON object, up to and including `}`. -/
def parseObjItems : Nat → List Char → Option (List (String × Json) × List Char)
  | 0, _ => none
  | fuel + 1, cs =>
    match skipWs cs with
    | '"' :: rest =>
      (match parseStrBody (fuel + 1) rest with
       | none => none
       | some (kcs, rem) =>
         match skipWs rem with
         | ':' :: rest' =>
           (match parseVal fuel rest' with
            | none => none
            | some (v, rem') =>
              match skipWs rem' with
              | ',' :: rest'' =>
                (match parseObjItems fuel rest'' with
                 | none => none
                 | some (fs, rem'') => some ((String.mk kcs, v) :: fs, rem''))
              | '}' :: rest'' => some ([(String.mk kcs, v)], rest'')
              | _ => none)
         | _ => none)
    | _ => none

end

/-- `JSON.parse(s)`: `none` models the thrown `SyntaxError` (in particular
on the empty string). -/
def jsonParse (s : String) : Option Json :=
  match parseVal (4 * s.length + 8) s.toList with
  | none => none
  | some (v, rem) => if (skipWs rem).isEmpty then some v else none

/-! ## `JSON.stringify(v, null, 2)` -/

/-- `n` spaces. -/
def spaces (n : Nat) : String :=
  String.mk (List.replicate n ' ')

/-- Escape one character for a JSON string literal, as `JSON.stringify` does. -/
def escapeJsonChar (c : Char) : String :=
  if c = '"' then "\\\""
  else if c = '\\' then "\\\\"
  else if c = '\x08' then "\\b"
  else if c = '\t' then "\\t"
  else if c = '\n' then "\\n"
  else if c = '\x0c' then "\\f"
  else if c = '\r' then "\\r"
  else if c.toNat < 32 then
    let hi := c.toNat / 16
    let lo := c.toNat % 16
    let hexDigit (n : Nat) : Char := if n < 10 then Char.ofNat ('0'.toNat + n) else Char.ofNat ('a'.toNat + n - 10)
    "\\u00" ++ String.mk [hexDigit hi, hexDigit lo]
  else String.singleton c

/-- Quote a string as a JSON string literal. -/
def quoteJsonString (s : String) : String :=
  "\"" ++ String.join (s.toList.map escapeJsonChar) ++ "\""

/-- Render a JSON numeral. Integral values print exactly as JavaScript does;
non-integral values (which never occur in the transport's inputs) use an
exact `num/den` fallback rather than modelling JS float formatting. -/
def renderJsonNum (q : ℚ) : String :=
  if q.den = 1 then toString q.num
  else toString q.num ++ "/" ++ toString q.den

mutual

/-- `JSON.stringify` body with gap width `gap`, at nesting depth `depth`. -/
def stringifyVal (gap depth : Nat) : Json → String
  | .null => "null"
  | .bool b => if b then "true" else "false"
  | .num q => renderJsonNum q
  | .str s => quoteJsonString s
  | .arr [] => "[]"
  | .arr (x :: xs) =>
    "[\n" ++ stringifyItems gap (depth + 1) x xs ++ "\n" ++ spaces (gap * depth) ++ "]"
  | .obj [] => "\x7b\x7d"
  | .obj (f :: fs) =>
    "\x7b\n" ++ stringifyMembers gap (depth + 1) f fs ++ "\n" ++ spaces (gap * depth) ++ "\x7d"
termination_by v => sizeOf v
decreasing_by all_goals simp_wf

/-- Array elements, one per line, comma separated. -/
def stringifyItems (gap depth : Nat) : Json → List Json → String
  | x, [] => spaces (gap * depth) ++ stringifyVal gap depth x
  | x, y :: ys =>
    spaces (gap * depth) ++ stringifyVal gap depth x ++ ",\n" ++ stringifyItems gap depth y ys
termination_by x xs => 1 + sizeOf x + sizeOf xs
decreasing_by all_goals (simp_wf <;> omega)

/-- Object members, one per line, comma separated. -/
def stringifyMembers (gap depth : Nat) : String × Json → List (String × Json) → String
  | (k, v), [] => spaces (gap * depth) ++ quoteJsonString k ++ ": " ++ stringifyVal gap depth v
  | (k, v), f :: fs =>
    spaces (gap * depth) ++ quoteJsonString k ++ ": " ++ stringifyVal gap depth v ++ ",\n" ++
      stringifyMembers gap depth f fs
termination_by f fs => 1 + sizeOf f + sizeOf fs
decreasing_by all_goals (simp_wf <;> omega)

end

/-- `JSON.stringify(v, null, 2)` as used by `throwFailedRequestError`. -/
def jsonStringify2 (v : Json) : String :=
  stringifyVal 2 0 v

/-! ## The fetch `Response` object

A completed network response, as the WHATWG fetch API presents it to the
source: a status, a status text, headers, and a body. `text()` yields the
body text, `json()` yields `JSON.parse` of it, `blob()` yields a blob of
the body bytes, and `.body` is the raw stream (`none` models a null body
stream). `ok` is derived: status in the inclusive range 200–299. -/

structure ResponseModel where
  status : Nat
  statusText : String
  headers : List (String × String)
  bodyText : String
  streamBody : Option String := none

/-- `response.ok`: status in the range 200..299. -/
def ResponseModel.isOk (r : ResponseModel) : Bool :=
  200 ≤ r.status && r.status ≤ 299

/-- `headers.get(name)`: case-insensitive lookup of a header value. -/
def headersGet (hs : List (String × String)) (name : String) : Option String :=
  ((hs.filter (fun p => lowerStr p.1 = lowerStr name)).head?).map (·.2)

/-- `response.json()`: `JSON.parse` of the body text; `none` models the
rejected promise on a parse failure (e.g. an empty body). -/
def ResponseModel.jsonBody (r : ResponseModel) : Option Json :=
  jsonParse r.bodyText

/-! ## `processBody` and `parseResponse` -/

/-- The decoded body of a resolved response. -/
inductive BodyVal where
  | jsonVal (v : Json) : BodyVal
  | text (s : String) : BodyVal
  | blob (size : Nat) : BodyVal
  | stream (raw : Option String) : BodyVal
  | nullBody : BodyVal

/-- The content type `processBody` matches on: the `content-type` header
(or `""`), cut at the first `;` and trimmed. -/
def contentTypeOf (r : ResponseModel) : String :=
  jsTrim (String.mk (splitAtFirst (fun c => c = ';') ((headersGet r.headers "content-type").getD "").toList).1)

/-- `processBody(response)`: strip any `;`-parameter suffix from the
content type, then decode JSON / text / blob accordingly. `none` models a
rejected promise (the JSON parse failing). -/
def processBody (r : ResponseModel) : Option BodyVal :=
  let contentType := contentTypeOf r
  if contentType = "application/json" then
    match r.jsonBody with
    | none => none
    | some v => some (.jsonVal (if v.truthy then v else .obj []))
  else if strStartsWith contentType "text/" then
    some (.text (if r.bodyText = "" then "" else r.bodyText))
  else
    some (.blob r.bodyText.utf8ByteSize)

/-- The `{ body, headers, status }` record a successful call resolves to. -/
structure ResolvedResponse where
  body : BodyVal
  headers : List (String × String)
  status : Nat

/-- `parseResponse(response, asStream)`: in streaming mode the raw stream,
otherwise `null` for a 204 status and the decoded body for the rest.
`none` models a rejected promise from `processBody`. -/
def parseResponse (r : ResponseModel) (asStream : Bool) : Option ResolvedResponse :=
  if asStream then
    some { body := .stream r.streamBody, headers := r.headers, status := r.status }
  else if r.status = 204 then
    some { body := .nullBody, headers := r.headers, status := r.status }
  else
    (processBody r).map (fun b => { body := b, headers := r.headers, status := r.status })

/-! ## Error normalization (`throwFailedRequestError`) and failure kinds -/

/-- A transport-level exception raised by `fetch` itself (never a response):
its `name` plus an opaque payload distinguishing individual exceptions. -/
structure TransportError where
  name : String
  payload : Nat := 0

/-- The ways a call to `defaultRequestHandler` can fail (the value thrown). -/
inductive FailKind where
  /-- `new Error(message)` with no cause: the fixed timeout and
  retries-exhausted messages. -/
  | plainError (message : String) : FailKind
  /-- A transport exception rethrown unchanged. -/
  | transport (e : TransportError) : FailKind
  /-- `new Error(statusText, { cause: { description, response } })` from
  `throwFailedRequestError`; `description = none` models `undefined`. -/
  | failedRequest (message : String) (description : Option String)
      (response : ResponseModel) : FailKind
  /-- `JSON.parse` throwing inside `throwFailedRequestError`. -/
  | malformedErrorBody (content : String) : FailKind
  /-- `response.json()` rejecting inside `processBody`. -/
  | bodyDecodeError (response : ResponseModel) : FailKind

/-- `throwFailedRequestError(response)`: read the body text; when the
`Content-Type` header contains `application/json`, parse it and take the
JSON-stringified `error` (or, when that is falsy, `message`) field as the
description, otherwise the raw text; the thrown error carries the status
text as its message and the description and response as its cause. -/
def throwFailedRequestError (r : ResponseModel) : FailKind :=
  let content := r.bodyText
  let contentType := headersGet r.headers "Content-Type"
  match contentType with
  | some ct =>
    if jsIncludes ct "application/json" then
      match jsonParse content with
      | none => .malformedErrorBody content
      | some output =>
        let picked := jsOr (jsGetField output "error") (jsGetField output "message")
        .failedRequest r.statusText (picked.map jsonStringify2) r
    else
      .failedRequest r.statusText (some content) r
  | none => .failedRequest r.statusText (some content) r

/-! ## Conditional request mode -/

/-- `getConditionalMode(endpoint)`: `same-origin` for endpoints containing
`repository/archive`, otherwise `undefined` (the default mode). -/
def getConditionalMode (endpoint : String) : Option String :=
  if jsIncludes endpoint "repository/archive" then some "same-origin" else none

/-! ## WHATWG URL model

The subset of the URL standard the transport exercises: absolute
`http`/`https` URLs of the form `scheme://host/path?query`, and resolution
of a relative reference against such a base. Dot-segment normalization,
percent-encoding, userinfo, ports-as-distinct-field and fragments are not
modelled; the transport's inputs do not use them. -/

structure UrlModel where
  scheme : String
  host : String
  path : String
  query : String

/-- Parse an absolute `http(s)://host/path?query` URL; `none` models the
`TypeError` the URL constructor throws on anything else. -/
def parseAbsoluteURL (s : String) : Option UrlModel :=
  let (scheme, rest) :=
    if strStartsWith s "https://" then ("https", strDropChars 8 s)
    else if strStartsWith s "http://" then ("http", strDropChars 7 s)
    else ("", s)
  if scheme = "" then none
  else
    let (hostCs, more) := splitAtFirst (fun c => c = '/' || c = '?') rest.toList
    if hostCs.isEmpty then none
    else
      let host := lowerStr (String.mk hostCs)
      match more with
      | none => some { scheme, host, path := "/", query := "" }
      | some ('/', tail) =>
        let (pathCs, q) := splitAtFirst (fun c => c = '?') tail
        some { scheme, host,
               path := "/" ++ String.mk pathCs,
               query := match q with | none => "" | some (_, qcs) => String.mk qcs }
      | some (_, tail) => some { scheme, host, path := "/", query := String.mk tail }

/-- The base directory of a path: everything up to and including the last
`/`. -/
def dirOfPath (path : String) : String :=
  String.mk ((path.toList.reverse.dropWhile (fun c => c ≠ '/')).reverse)

/-- Resolve a relative reference against an absolute base URL: a reference
starting with `/` replaces the whole path, otherwise it is appended to the
base directory; a `?` inside the reference starts its query. -/
def resolveRelativeRef (base : UrlModel) (ref : String) : UrlModel :=
  let (pathCs, q) := splitAtFirst (fun c => c = '?') ref.toList
  let relQuery := match q with | none => "" | some (_, qcs) => String.mk qcs
  let relPath := String.mk pathCs
  if relPath = "" then { base with query := relQuery }
  else if strStartsWith relPath "/" then { base with path := relPath, query := relQuery }
  else { base with path := dirOfPath base.path ++ relPath, query := relQuery }

/-- `new URL(endpoint, base)`: an absolute endpoint stands alone;
otherwise it is resolved against the base, and the constructor throws
(`none`) when no valid base is available. -/
def newURL (endpoint : String) (base : Option String) : Option UrlModel :=
  match parseAbsoluteURL endpoint with
  | some u => some u
  | none =>
    match base with
    | none => none
    | some b => (parseAbsoluteURL b).map (fun bu => resolveRelativeRef bu endpoint)

/-- The `url.search` setter: replace the query, dropping one leading `?`. -/
def setSearch (u : UrlModel) (v : String) : UrlModel :=
  { u with query := if strStartsWith v "?" then strDropChars 1 v else v }

/-- Serialize a URL back to a string; an empty query adds no `?`. -/
def UrlModel.href (u : UrlModel) : String :=
  u.scheme ++ "://" ++ u.host ++ u.path ++ (if u.query = "" then "" else "?" ++ u.query)

/-! ## `defaultOptionsHandler` -/

/-- The resource-level options the agent decision reads. -/
structure ResourceOptionsModel where
  url : String
  rejectUnauthorized : Option Bool := none

/-- The `https.Agent` constructed for certificate bypass. -/
structure AgentModel where
  rejectUnauthorized : Bool

/-- The request options returned by the handler, as far as the agent
decision is concerned. The upstream `baseOptionsHandler` merge never sets
an agent. -/
structure OptionsModel where
  agent : Option AgentModel := none

/-- `defaultOptionsHandler(resourceOptions, requestOptions)`: starting
from the upstream-merged options, attach a `rejectUnauthorized: false`
agent when the resource URL contains `https`, `rejectUnauthorized` is set
and equal to `false`, and no global `window` object exists. -/
def defaultOptionsHandler (resourceOptions : ResourceOptionsModel)
    (hasWindowObject : Bool) : OptionsModel :=
  let options : OptionsModel := {}
  if jsIncludes resourceOptions.url "https"
      && resourceOptions.rejectUnauthorized.isSome
      && resourceOptions.rejectUnauthorized == some false then
    if !hasWindowObject then { options with agent := some { rejectUnauthorized := false } }
    else options
  else options

/-! ## `defaultRequestHandler` -/

/-- The options `defaultRequestHandler` destructures. -/
structure RequestOptionsModel where
  prefixUrl : Option String := none
  asStream : Bool := false
  searchParams : Option String := none

/-- One `fetch` call's outcome: a transport exception or a response. -/
inductive FetchOutcome where
  | err (e : TransportError) : FetchOutcome
  | resp (r : ResponseModel) : FetchOutcome

/-- The retryable status codes. -/
def retryCodes : List Nat := [429, 502]

/-- The maximal number of attempts. -/
def maxRetries : Nat := 10

/-- The retry delay argument of attempt `i`, in milliseconds:
`delay(2 ** i * 0.1)`. -/
def retryDelayMs (i : Nat) : ℚ :=
  2 ^ i * (1 / 10)

/-- One iteration of the retry loop on outcome `o`: `none` requests a
retry, `some` ends the loop with a result or a thrown failure. -/
def attemptResult (o : FetchOutcome) (asStream : Bool) :
    Option (Except FailKind ResolvedResponse) :=
  match o with
  | .err e =>
    if e.name == "TimeoutError" || e.name == "AbortError" then
      some (.error (.plainError "Query timeout was reached"))
    else
      some (.error (.transport e))
  | .resp r =>
    if r.isOk then
      some (match parseResponse r asStream with
            | some res => .ok res
            | none => .error (.bodyDecodeError r))
    else if retryCodes.contains r.status then
      none
    else
      some (.error (throwFailedRequestError r))

/-- What one run of the retry loop produces: the final outcome, the
number of network calls performed, and the arguments (in milliseconds)
passed to `delay` between attempts, in order. -/
structure LoopRun where
  result : Except FailKind ResolvedResponse
  calls : Nat
  delays : List ℚ

/-- The retry loop of `defaultRequestHandler`, with `fetches i` the
outcome of the `i`-th network call, running at most `remaining` further
attempts starting at attempt index `i`. A retried attempt `i` awaits
`delay(2 ** i * 0.1)` before continuing. -/
def runRetryLoop (fetches : Nat → FetchOutcome) (asStream : Bool) :
    Nat → Nat → LoopRun
  | 0, _ => ⟨.error (.plainError "Could not successfully complete this request"), 0, []⟩
  | remaining + 1, i =>
    match attemptResult (fetches i) asStream with
    | some out => ⟨out, 1, []⟩
    | none =>
      let rest := runRetryLoop fetches asStream remaining (i + 1)
      ⟨rest.result, rest.calls + 1, retryDelayMs i :: rest.delays⟩

/-- Everything observable about one `defaultRequestHandler` call: the URL
it builds (and its serialization), the mode passed to every `fetch`, the
final outcome and the number of network calls. -/
structure HandlerTrace where
  url : UrlModel
  urlString : String
  mode : Option String
  result : Except FailKind ResolvedResponse
  calls : Nat
  delays : List ℚ

/-- The base URL: `if (prefixUrl) baseUrl = prefixUrl.endsWith('/') ?
prefixUrl : prefixUrl + '/'`. -/
def ensuredBase : Option String → Option String
  | some p => if p ≠ "" then some (if strEndsWith p "/" then p else p ++ "/") else none
  | none => none

/-- `defaultRequestHandler(endpoint, options)` over a given sequence of
fetch outcomes: ensure the prefix ends in `/`, build the URL (`none`
models the constructor throwing), overwrite its query with
`searchParams || ''`, compute the conditional mode, and run the retry
loop. -/
def defaultRequestHandler (endpoint : String) (options : RequestOptionsModel)
    (fetches : Nat → FetchOutcome) : Option HandlerTrace :=
  match newURL endpoint (ensuredBase options.prefixUrl) with
  | none => none
  | some u0 =>
    let u := setSearch u0 (options.searchParams.getD "")
    let run := runRetryLoop fetches options.asStream maxRetries 0
    some { url := u, urlString := u.href, mode := getConditionalMode endpoint,
           result := run.result, calls := run.calls, delays := run.delays }

/-! ## Concrete test vectors -/

/-- Headers declaring a JSON content type. -/
def jsonHeaders : List (String × String) := [("content-type", "application/json")]

/-- A 429 (rate-limited) response. -/
def resp429c : ResponseModel := ⟨429, "Too Many Requests", [], "", none⟩

/-- A 502 (bad gateway) response. -/
def resp502c : ResponseModel := ⟨502, "Bad Gateway", [], "", none⟩

/-- A 200 response with JSON body `{}`. -/
def resp200c : ResponseModel := ⟨200, "OK", jsonHeaders, "\x7b\x7d", none⟩

/-- A 501 response with JSON body `{"error":"msg"}`. -/
def resp501c : ResponseModel := ⟨501, "Really Bad Error", jsonHeaders, "\x7b\"error\":\"msg\"\x7d", none⟩

/-- Its decoded form: `{ body: {}, headers, status: 200 }`. -/
def res200c : ResolvedResponse := ⟨.jsonVal (.obj []), jsonHeaders, 200⟩

/-- Attempts: 429, 502, then 200. -/
def seqC1 : Nat → FetchOutcome
  | 0 => .resp resp429c
  | 1 => .resp resp502c
  | _ => .resp resp200c

/-- Every attempt rate-limited. -/
def seq429 : Nat → FetchOutcome := fun _ => .resp resp429c

/-- Every attempt answers 501. -/
def seq501 : Nat → FetchOutcome := fun _ => .resp resp501c

/-- Every attempt answers 200. -/
def seq200 : Nat → FetchOutcome := fun _ => .resp resp200c

/-- A placeholder trace (used only as an `Option.getD` fallback). -/
def fallbackTrace : HandlerTrace := ⟨⟨"", "", "", ""⟩, "", none, .error (.plainError ""), 0, []⟩

/-- The trace of the 429→502→200 run. -/
def traceC1a : HandlerTrace :=
  (defaultRequestHandler "http://test.com" {} seqC1).getD fallbackTrace

/-- The trace of the all-429 run. -/
def traceC1b : HandlerTrace :=
  (defaultRequestHandler "http://test.com" {} seq429).getD fallbackTrace


/-- The counterexample response for the decode claim: valid, non-empty
JSON body `false` with a parameterized JSON content type. -/
def respFalseBody : ResponseModel :=
  ⟨200, "OK", [("content-type", "application/json; charset=utf-8")], "false", none⟩

/-- A JSON-typed 200 response with an empty body. -/
def respEmptyBody : ResponseModel := ⟨200, "OK", jsonHeaders, "", none⟩

/-- A 204 response carrying a raw stream. -/
def resp204c : ResponseModel := ⟨204, "No Content", jsonHeaders, "", some "raw-bytes"⟩

/-- Every attempt times out. -/
def seqTimeoutC : Nat → FetchOutcome := fun _ => .err ⟨"TimeoutError", 0⟩

/-- Every attempt raises a non-timeout transport error. -/
def seqOtherErrC : Nat → FetchOutcome := fun _ => .err ⟨"FetchError", 7⟩

/-- The trace of an archive-endpoint run. -/
def traceC7 : HandlerTrace :=
  (defaultRequestHandler "http://test.com/repository/archive" {} seq200).getD fallbackTrace

/-- The trace of the 501-error run. -/
def traceC8 : HandlerTrace :=
  (defaultRequestHandler "http://test.com" {} seq501).getD fallbackTrace

/-- The trace of the timeout run. -/
def traceC9a : HandlerTrace :=
  (defaultRequestHandler "http://test.com" {} seqTimeoutC).getD fallbackTrace

/-- The trace of the generic-transport-error run. -/
def traceC9b : HandlerTrace :=
  (defaultRequestHandler "http://test.com" {} seqOtherErrC).getD fallbackTrace

/-- The trace of a run whose endpoint already carries a query but whose
options set no search params. -/
def traceC10 : HandlerTrace :=
  (defaultRequestHandler "http://test.com/a?x=1" {} seq200).getD fallbackTrace

/-- The claim's side condition for the TLS-bypass rule, as the
specification words it: the resource URL's scheme is `https`. -/
def urlSchemeIsHttps (url : String) : Bool :=
  strStartsWith url "https://"

/-! ## Helper lemmas about the retry loop and the handler -/

/-- A retryable exchange (not ok, status in the retry set) makes the loop
continue. -/
theorem attemptResult_retry {r : ResponseModel} {s : Bool}
    (hok : r.isOk = false) (hre : retryCodes.contains r.status = true) :
    attemptResult (.resp r) s = none := by
  have hmem : r.status ∈ retryCodes := by simpa using hre
  simp [attemptResult, hok, hmem]

/-- An ok exchange whose parse succeeds ends the loop with that result. -/
theorem attemptResult_ok {r : ResponseModel} {s : Bool} {res : ResolvedResponse}
    (hok : r.isOk = true) (hres : parseResponse r s = some res) :
    attemptResult (.resp r) s = some (.ok res) := by
  simp [attemptResult, hok, hres]

/-- A non-ok, non-retryable exchange ends the loop with the normalized
error. -/
theorem attemptResult_failed {r : ResponseModel} {s : Bool}
    (hok : r.isOk = false) (hre : retryCodes.contains r.status = false) :
    attemptResult (.resp r) s = some (.error (throwFailedRequestError r)) := by
  have hmem : r.status ∉ retryCodes := by simpa using hre
  simp [attemptResult, hok, hmem]

/-- A transport exception ends the loop: translated for timeout/abort
names, rethrown unchanged otherwise. -/
theorem attemptResult_err (e : TransportError) (s : Bool) :
    attemptResult (.err e) s =
      some (.error (if e.name == "TimeoutError" || e.name == "AbortError" then
        .plainError "Query timeout was reached" else .transport e)) := by
  by_cases h : (e.name == "TimeoutError" || e.name == "AbortError") = true <;>
    simp [attemptResult, h]

/-- Shifting the delay sequence by one attempt. -/
theorem retryDelays_cons (i n : Nat) :
    retryDelayMs i :: (List.range n).map (fun j => retryDelayMs (i + 1 + j)) =
      (List.range (n + 1)).map (fun j => retryDelayMs (i + j)) := by
  rw [List.range_succ_eq_map, List.map_cons, List.map_map]
  refine congrArg₂ List.cons (by simp) ?_
  refine List.map_congr_left (fun j hj => ?_)
  simp only [Function.comp_apply]
  congr 1
  omega

/-- When every attempt in range retries, the loop exhausts all its
attempts and fails with the fixed message, after one delay per attempt. -/
theorem runRetryLoop_all_retry (fetches : Nat → FetchOutcome) (asStream : Bool) :
    ∀ (n i : Nat), (∀ j, j < n → attemptResult (fetches (i + j)) asStream = none) →
    runRetryLoop fetches asStream n i =
      ⟨.error (.plainError "Could not successfully complete this request"), n,
        (List.range n).map (fun j => retryDelayMs (i + j))⟩
  | 0, i, _ => rfl
  | n + 1, i, h => by
    have h0 : attemptResult (fetches i) asStream = none := by
      simpa using h 0 (Nat.succ_pos n)
    have ih := runRetryLoop_all_retry fetches asStream n (i + 1) (fun j hj => by
      have := h (j + 1) (Nat.succ_lt_succ hj)
      simpa [Nat.add_comm, Nat.add_assoc, Nat.add_left_comm] using this)
    simp only [runRetryLoop, h0, ih]
    rw [retryDelays_cons]

/-- Splitting a run after a prefix of `m` retried attempts. -/
theorem runRetryLoop_prefix (fetches : Nat → FetchOutcome) (asStream : Bool) :
    ∀ (m n i : Nat), (∀ j, j < m → attemptResult (fetches (i + j)) asStream = none) →
    runRetryLoop fetches asStream (n + m) i =
      ⟨(runRetryLoop fetches asStream n (i + m)).result,
        (runRetryLoop fetches asStream n (i + m)).calls + m,
        ((List.range m).map (fun j => retryDelayMs (i + j))) ++
          (runRetryLoop fetches asStream n (i + m)).delays⟩
  | 0, n, i, _ => by simp
  | m + 1, n, i, h => by
    have h0 : attemptResult (fetches i) asStream = none := by
      simpa using h 0 (Nat.succ_pos m)
    have ih := runRetryLoop_prefix fetches asStream m n (i + 1) (fun j hj => by
      have := h (j + 1) (Nat.succ_lt_succ hj)
      simpa [Nat.add_comm, Nat.add_assoc, Nat.add_left_comm] using this)
    have hsplit : n + (m + 1) = (n + m) + 1 := by omega
    have hi : i + 1 + m = i + (m + 1) := by omega
    rw [hsplit]
    simp only [runRetryLoop, h0, ih]
    simp only [LoopRun.mk.injEq]
    refine ⟨by rw [hi], by rw [hi]; omega, ?_⟩
    rw [hi, ← List.cons_append, retryDelays_cons]

/-- Unpacking a successful handler invocation into its parts. -/
theorem handler_eq_some {endpoint : String} {options : RequestOptionsModel}
    {fetches : Nat → FetchOutcome} {t : HandlerTrace}
    (ht : defaultRequestHandler endpoint options fetches = some t) :
    ∃ u0, newURL endpoint (ensuredBase options.prefixUrl) = some u0 ∧
      t = { url := setSearch u0 (options.searchParams.getD ""),
            urlString := (setSearch u0 (options.searchParams.getD "")).href,
            mode := getConditionalMode endpoint,
            result := (runRetryLoop fetches options.asStream maxRetries 0).result,
            calls := (runRetryLoop fetches options.asStream maxRetries 0).calls,
            delays := (runRetryLoop fetches options.asStream maxRetries 0).delays } := by
  unfold defaultRequestHandler at ht
  cases hnew : newURL endpoint (ensuredBase options.prefixUrl) with
  | none => rw [hnew] at ht; exact absurd ht (by simp)
  | some u0 =>
    rw [hnew] at ht
    simp only [Option.some.injEq] at ht
    exact ⟨u0, rfl, ht.symm⟩

/-- `status = n` determines `ok`. -/
theorem isOk_of_status {r : ResponseModel} {n : Nat} (h : r.status = n) :
    r.isOk = (200 ≤ n && n ≤ 299) := by
  unfold ResponseModel.isOk; rw [h]

/-! ## The claims -/

/-- C1: a run whose successive attempts answer 429, 502, 200 performs
exactly 3 network calls and resolves with the decoded result of the third
response; a run of 10 consecutive 429s performs exactly 10 calls and then
fails with the fixed message "Could not successfully complete this
request". -/
theorem claim_C1_retry_counts
    (endpoint endpoint' : String) (options options' : RequestOptionsModel)
    (fetches fetches' : Nat → FetchOutcome)
    (r0 r1 r2 : ResponseModel) (res : ResolvedResponse) (t t' : HandlerTrace)
    (h0 : fetches 0 = .resp r0) (hs0 : r0.status = 429)
    (h1 : fetches 1 = .resp r1) (hs1 : r1.status = 502)
    (h2 : fetches 2 = .resp r2) (hs2 : r2.status = 200)
    (hres : parseResponse r2 options.asStream = some res)
    (ht : defaultRequestHandler endpoint options fetches = some t)
    (hall : ∀ i, i < 10 → ∃ r, fetches' i = .resp r ∧ r.status = 429)
    (ht' : defaultRequestHandler endpoint' options' fetches' = some t') :
    (t.calls = 3 ∧ t.result = .ok res) ∧
    (t'.calls = 10 ∧
      t'.result = .error (.plainError "Could not successfully complete this request")) := by
  obtain ⟨u0, -, rfl⟩ := handler_eq_some ht
  obtain ⟨u0', -, rfl⟩ := handler_eq_some ht'
  constructor
  · have hpre : ∀ j, j < 2 → attemptResult (fetches (0 + j)) options.asStream = none := by
      intro j hj
      interval_cases j
      · show attemptResult (fetches 0) options.asStream = none
        rw [h0]
        exact attemptResult_retry (by rw [isOk_of_status hs0]; decide) (by rw [hs0]; decide)
      · show attemptResult (fetches 1) options.asStream = none
        rw [h1]
        exact attemptResult_retry (by rw [isOk_of_status hs1]; decide) (by rw [hs1]; decide)
    have hstep : runRetryLoop fetches options.asStream 8 (0 + 2) = ⟨.ok res, 1, []⟩ := by
      have ha : attemptResult (fetches 2) options.asStream = some (.ok res) := by
        rw [h2]
        exact attemptResult_ok (by rw [isOk_of_status hs2]; decide) hres
      show runRetryLoop fetches options.asStream 8 2 = _
      simp [runRetryLoop, ha]
    rw [show maxRetries = 8 + 2 from rfl, runRetryLoop_prefix fetches options.asStream 2 8 0 hpre,
      hstep]
    exact ⟨rfl, rfl⟩
  · have hpre' : ∀ j, j < 10 → attemptResult (fetches' (0 + j)) options'.asStream = none := by
      intro j hj
      obtain ⟨r, hr, hst⟩ := hall j hj
      rw [Nat.zero_add, hr]
      exact attemptResult_retry (by rw [isOk_of_status hst]; decide) (by rw [hst]; decide)
    rw [show maxRetries = 10 from rfl,
      runRetryLoop_all_retry fetches' options'.asStream 10 0 hpre']
    exact ⟨rfl, rfl⟩

theorem claim_C1_retry_counts_witness :
    (traceC1a.calls = 3 ∧ traceC1a.result = .ok res200c) ∧
    (traceC1b.calls = 10 ∧
      traceC1b.result = .error (.plainError "Could not successfully complete this request")) :=
  claim_C1_retry_counts "http://test.com" "http://test.com" {} {} seqC1 seq429
    resp429c resp502c resp200c res200c traceC1a traceC1b
    rfl rfl rfl rfl rfl rfl rfl rfl (fun _ _ => ⟨resp429c, rfl, rfl⟩) rfl

/-- C2: the delay awaited after a retried attempt `i` is the code's
`delay(2 ** i * 0.1)`, i.e. `0.1 × 2^i` milliseconds (0.1ms, 0.2ms,
0.4ms, …) — not the `100 × 2^i` milliseconds the specification states:
the loop passes `retryDelayMs i` to `delay` and `retryDelayMs 0 = 1/10 ≠
100`. -/
theorem claim_C2_delay_values :
    (∀ i, retryDelayMs i = (2 : ℚ) ^ i / 10) ∧
    retryDelayMs 0 = 1 / 10 ∧ ¬ retryDelayMs 0 = 100 ∧
    (runRetryLoop seq429 false 10 0).delays = (List.range 10).map retryDelayMs := by
  refine ⟨fun i => by unfold retryDelayMs; ring, by norm_num [retryDelayMs],
    by norm_num [retryDelayMs], ?_⟩
  have hpre : ∀ j, j < 10 → attemptResult (seq429 (0 + j)) false = none := by
    intro j hj
    exact attemptResult_retry (by decide) (by decide)
  rw [runRetryLoop_all_retry seq429 false 10 0 hpre]
  simp

/-- C3 as stated is false: for the ok JSON-typed response with the
non-empty JSON body `false`, `processBody` does not return the parsed
value `false` but the empty object, and for an empty JSON body it does
not return an empty object but propagates the parse failure. -/
theorem claim_C3_counterexample :
    jsonParse "false" = some (.bool false) ∧
    processBody respFalseBody = some (.jsonVal (.obj [])) ∧
    ¬ processBody respFalseBody = some (.jsonVal (.bool false)) ∧
    processBody respEmptyBody = none := by
  refine ⟨rfl, rfl, ?_, rfl⟩
  intro h
  rw [show processBody respFalseBody = some (.jsonVal (.obj [])) from rfl] at h
  simp only [Option.some.injEq, BodyVal.jsonVal.injEq] at h
  exact Json.noConfusion h

/-- C3 (amended): for every ok response whose content type (after
stripping any parameter suffix) is `application/json`, `processBody`
returns the parsed JSON value when that value is truthy and the empty
object `{}` when it is falsy (`null`, `false`, `0`, `""`); a body that is
not valid JSON — the empty body included — makes the decode fail (the
parse rejection propagates) rather than yield `{}`. -/
theorem claim_C3_json_decode (r : ResponseModel)
    (hct : contentTypeOf r = "application/json") :
    processBody r = (jsonParse r.bodyText).map
      (fun v => .jsonVal (if v.truthy then v else .obj [])) ∧
    (r.bodyText = "" → processBody r = none) := by
  have hmain : processBody r = (jsonParse r.bodyText).map
      (fun v => .jsonVal (if v.truthy then v else .obj [])) := by
    cases hj : jsonParse r.bodyText with
    | none => simp [processBody, hct, ResponseModel.jsonBody, hj]
    | some v => simp [processBody, hct, ResponseModel.jsonBody, hj]
  refine ⟨hmain, fun hb => ?_⟩
  rw [hmain, hb]
  rfl

theorem claim_C3_json_decode_witness :
    contentTypeOf respFalseBody = "application/json" ∧
    processBody respFalseBody = (jsonParse respFalseBody.bodyText).map
      (fun v => .jsonVal (if v.truthy then v else .obj [])) ∧
    (respEmptyBody.bodyText = "" → processBody respEmptyBody = none) :=
  ⟨rfl, (claim_C3_json_decode respFalseBody rfl).1,
    (claim_C3_json_decode respEmptyBody rfl).2⟩

/-- C4: without streaming, a 204 status yields a `null` body whatever the
content type and body are, skipping decoding; with streaming, the raw
byte stream is returned unconsumed for every response, the 204 rule
included. -/
theorem claim_C4_status204_stream (r : ResponseModel) :
    (r.status = 204 → parseResponse r false =
      some { body := .nullBody, headers := r.headers, status := r.status }) ∧
    parseResponse r true =
      some { body := .stream r.streamBody, headers := r.headers, status := r.status } := by
  refine ⟨fun h204 => ?_, ?_⟩
  · simp [parseResponse, h204]
  · simp [parseResponse]

theorem claim_C4_status204_stream_witness :
    resp204c.status = 204 ∧
    parseResponse resp204c false = some ⟨.nullBody, jsonHeaders, 204⟩ ∧
    parseResponse resp204c true = some ⟨.stream (some "raw-bytes"), jsonHeaders, 204⟩ :=
  ⟨rfl, (claim_C4_status204_stream resp204c).1 rfl, (claim_C4_status204_stream resp204c).2⟩

/-- C5: endpoint `testurl/123` with search params `test=4` builds exactly
`http://test.com/projects/testurl/123?test=4`, identically for the
prefix with and without a trailing slash. -/
theorem claim_C5_prefix_url (fetches : Nat → FetchOutcome) :
    (defaultRequestHandler "testurl/123"
        { prefixUrl := some "http://test.com/projects", searchParams := some "test=4" }
        fetches).map HandlerTrace.urlString =
      some "http://test.com/projects/testurl/123?test=4" ∧
    (defaultRequestHandler "testurl/123"
        { prefixUrl := some "http://test.com/projects/", searchParams := some "test=4" }
        fetches).map HandlerTrace.urlString =
      some "http://test.com/projects/testurl/123?test=4" ∧
    (defaultRequestHandler "testurl/123"
        { prefixUrl := some "http://test.com/projects", searchParams := some "test=4" }
        fetches).map HandlerTrace.urlString =
      (defaultRequestHandler "testurl/123"
        { prefixUrl := some "http://test.com/projects/", searchParams := some "test=4" }
        fetches).map HandlerTrace.urlString :=
  ⟨rfl, rfl, rfl⟩

/-- C6 as stated is false: the code tests `url.includes('https')`, not
the URL's scheme, so an `http` URL containing `https` elsewhere (with
`rejectUnauthorized: false`, outside a browser) still gets the bypass
agent although its scheme is not `https`. -/
theorem claim_C6_counterexample :
    defaultOptionsHandler ⟨"http://test.com/https", some false⟩ false =
      { agent := some ⟨false⟩ } ∧
    urlSchemeIsHttps "http://test.com/https" = false :=
  ⟨rfl, rfl⟩

/-- C6 (amended): the certificate-bypass agent is attached if and only if
the resource URL contains the substring `https` (rather than: has scheme
`https`), `rejectUnauthorized` is explicitly `false`, and no global
`window` object exists; when attached it is the `rejectUnauthorized:
false` agent, otherwise no agent is set, and in a browser-like
environment the handler still returns normally with no agent (the
setting is silently ignored). -/
theorem claim_C6_tls_bypass (ro : ResourceOptionsModel) (hasWindowObject : Bool) :
    (((defaultOptionsHandler ro hasWindowObject).agent ≠ none) ↔
      (jsIncludes ro.url "https" = true ∧ ro.rejectUnauthorized = some false ∧
        hasWindowObject = false)) ∧
    ((defaultOptionsHandler ro hasWindowObject).agent = none ∨
      (defaultOptionsHandler ro hasWindowObject).agent = some ⟨false⟩) := by
  obtain ⟨url, ru⟩ := ro
  cases hasWindowObject <;> rcases ru with _ | b <;> try cases b
  all_goals
    by_cases hurl : jsIncludes url "https" = true <;>
      simp [defaultOptionsHandler, hurl]

/-- C7: the request mode is `same-origin` exactly for endpoints
containing the literal substring `repository/archive`; every other
endpoint gets the default (undefined) mode; and every fetch of a handler
run is issued with that conditional mode. -/
theorem claim_C7_conditional_mode (endpoint : String) :
    (getConditionalMode endpoint = some "same-origin" ↔
      jsIncludes endpoint "repository/archive" = true) ∧
    (jsIncludes endpoint "repository/archive" = false →
      getConditionalMode endpoint = none) ∧
    (∀ (options : RequestOptionsModel) (fetches : Nat → FetchOutcome) (t : HandlerTrace),
      defaultRequestHandler endpoint options fetches = some t →
      t.mode = getConditionalMode endpoint) := by
  refine ⟨?_, ?_, ?_⟩
  · unfold getConditionalMode
    by_cases h : jsIncludes endpoint "repository/archive" = true <;> simp [h]
  · intro h
    unfold getConditionalMode
    simp [h]
  · intro options fetches t ht
    obtain ⟨u0, -, rfl⟩ := handler_eq_some ht
    rfl

theorem claim_C7_conditional_mode_witness :
    (getConditionalMode "http://test.com/repository/archive" = some "same-origin" ↔
      jsIncludes "http://test.com/repository/archive" "repository/archive" = true) ∧
    traceC7.mode = getConditionalMode "http://test.com/repository/archive" ∧
    traceC7.mode = some "same-origin" :=
  ⟨(claim_C7_conditional_mode "http://test.com/repository/archive").1,
    (claim_C7_conditional_mode "http://test.com/repository/archive").2.2 {} seq200 traceC7 rfl,
    rfl⟩

/-- C8: a first response that is not ok and not retryable, with a JSON
`Content-Type` and a parseable body, makes the handler fail after exactly
one network call with an error whose message is the response's status
text and whose cause carries the JSON-stringified `error` field (falling
back to `message` when `error` is falsy or absent) as description
together with the original response. -/
theorem claim_C8_error_normalization
    (endpoint : String) (options : RequestOptionsModel) (fetches : Nat → FetchOutcome)
    (r : ResponseModel) (out : Json) (ct : String) (t : HandlerTrace)
    (h0 : fetches 0 = .resp r)
    (hok : r.isOk = false)
    (hre : retryCodes.contains r.status = false)
    (hcth : headersGet r.headers "Content-Type" = some ct)
    (hctj : jsIncludes ct "application/json" = true)
    (hparse : jsonParse r.bodyText = some out)
    (ht : defaultRequestHandler endpoint options fetches = some t) :
    t.calls = 1 ∧
    t.result = .error (.failedRequest r.statusText
      ((jsOr (jsGetField out "error") (jsGetField out "message")).map jsonStringify2) r) := by
  obtain ⟨u0, -, rfl⟩ := handler_eq_some ht
  have ha : attemptResult (fetches 0) options.asStream =
      some (.error (throwFailedRequestError r)) := by
    rw [h0]
    exact attemptResult_failed hok hre
  have hthrow : throwFailedRequestError r = .failedRequest r.statusText
      ((jsOr (jsGetField out "error") (jsGetField out "message")).map jsonStringify2) r := by
    unfold throwFailedRequestError
    simp [hcth, hctj, hparse]
  constructor
  · show (runRetryLoop fetches options.asStream maxRetries 0).calls = 1
    rw [show maxRetries = 9 + 1 from rfl]
    simp only [runRetryLoop, ha]
  · show (runRetryLoop fetches options.asStream maxRetries 0).result = _
    rw [show maxRetries = 9 + 1 from rfl]
    simp only [runRetryLoop, ha, hthrow]

theorem claim_C8_error_normalization_witness :
    jsonParse resp501c.bodyText = some (.obj [("error", .str "msg")]) ∧
    resp501c.isOk = false ∧
    traceC8.calls = 1 ∧
    traceC8.result = .error (.failedRequest "Really Bad Error" (some "\"msg\"") resp501c) := by
  have h := claim_C8_error_normalization "http://test.com" {} seq501 resp501c
    (.obj [("error", .str "msg")]) "application/json" traceC8 rfl rfl rfl rfl rfl rfl rfl
  refine ⟨rfl, rfl, h.1, ?_⟩
  rw [h.2]
  rw [show jsOr (jsGetField (Json.obj [("error", Json.str "msg")]) "error")
    (jsGetField (Json.obj [("error", Json.str "msg")]) "message") = some (.str "msg") from rfl]
  have hs : jsonStringify2 (.str "msg") = "\"msg\"" := by
    simp only [jsonStringify2, stringifyVal, quoteJsonString, escapeJsonChar]
    rfl
  simp [hs]
  rfl

/-- C9: when the `k`-th attempt's `fetch` itself fails (after `k` retried
exchanges), the handler ends on that very attempt, with the fixed message
"Query timeout was reached" when the exception's name is `TimeoutError`
or `AbortError`, and with the original exception rethrown unchanged
otherwise. -/
theorem claim_C9_transport_failure
    (endpoint : String) (options : RequestOptionsModel) (fetches : Nat → FetchOutcome)
    (k : Nat) (e : TransportError) (t : HandlerTrace)
    (hk : k < 10)
    (hpre : ∀ j, j < k → ∃ r, fetches j = .resp r ∧ r.isOk = false ∧
      retryCodes.contains r.status = true)
    (he : fetches k = .err e)
    (ht : defaultRequestHandler endpoint options fetches = some t) :
    t.calls = k + 1 ∧
    t.result = .error (if e.name == "TimeoutError" || e.name == "AbortError" then
      .plainError "Query timeout was reached" else .transport e) := by
  obtain ⟨u0, -, rfl⟩ := handler_eq_some ht
  have hpre' : ∀ j, j < k → attemptResult (fetches (0 + j)) options.asStream = none := by
    intro j hj
    obtain ⟨r, hr, hok, hre⟩ := hpre j hj
    rw [Nat.zero_add, hr]
    exact attemptResult_retry hok hre
  have ha : attemptResult (fetches k) options.asStream =
      some (.error (if e.name == "TimeoutError" || e.name == "AbortError" then
        .plainError "Query timeout was reached" else .transport e)) := by
    rw [he]
    exact attemptResult_err e options.asStream
  obtain ⟨m, hm⟩ : ∃ m, 10 - k = m + 1 := ⟨10 - k - 1, by omega⟩
  have hstep : runRetryLoop fetches options.asStream (10 - k) (0 + k) =
      ⟨.error (if e.name == "TimeoutError" || e.name == "AbortError" then
        .plainError "Query timeout was reached" else .transport e), 1, []⟩ := by
    rw [Nat.zero_add, hm]
    simp only [runRetryLoop, ha]
  have hsplit : maxRetries = (10 - k) + k := by unfold maxRetries; omega
  constructor
  · show (runRetryLoop fetches options.asStream maxRetries 0).calls = k + 1
    rw [hsplit, runRetryLoop_prefix fetches options.asStream k (10 - k) 0 hpre', hstep]
    show 1 + k = k + 1
    omega
  · show (runRetryLoop fetches options.asStream maxRetries 0).result = _
    rw [hsplit, runRetryLoop_prefix fetches options.asStream k (10 - k) 0 hpre', hstep]

theorem claim_C9_transport_failure_witness :
    traceC9a.calls = 0 + 1 ∧
    traceC9a.result = .error (.plainError "Query timeout was reached") ∧
    traceC9b.calls = 0 + 1 ∧
    traceC9b.result = .error (.transport ⟨"FetchError", 7⟩) := by
  have ha := claim_C9_transport_failure "http://test.com" {} seqTimeoutC 0
    ⟨"TimeoutError", 0⟩ traceC9a (by omega) (fun j hj => absurd hj (by omega)) rfl rfl
  have hb := claim_C9_transport_failure "http://test.com" {} seqOtherErrC 0
    ⟨"FetchError", 7⟩ traceC9b (by omega) (fun j hj => absurd hj (by omega)) rfl rfl
  exact ⟨ha.1, ha.2, hb.1, hb.2⟩

/-- C10: when the options carry no (or an empty) `searchParams`, the
resolved URL's query is set to the empty string before any fetch — a
query already present in the endpoint or prefix is dropped — and the
issued URL serializes without any query part. -/
theorem claim_C10_search_reset
    (endpoint : String) (options : RequestOptionsModel) (fetches : Nat → FetchOutcome)
    (t : HandlerTrace)
    (hsp : options.searchParams = none ∨ options.searchParams = some "")
    (ht : defaultRequestHandler endpoint options fetches = some t) :
    t.url.query = "" ∧
    t.urlString = t.url.scheme ++ "://" ++ t.url.host ++ t.url.path := by
  obtain ⟨u0, -, rfl⟩ := handler_eq_some ht
  have hq : options.searchParams.getD "" = "" := by
    rcases hsp with h | h <;> simp [h]
  have hquery : (setSearch u0 (options.searchParams.getD "")).query = "" := by
    rw [hq]
    rfl
  refine ⟨hquery, ?_⟩
  show (setSearch u0 (options.searchParams.getD "")).href = _
  unfold UrlModel.href
  rw [hquery]
  simp

theorem claim_C10_search_reset_witness :
    traceC10.url.query = "" ∧
    traceC10.urlString = "http://test.com/a" := by
  have h := claim_C10_search_reset "http://test.com/a?x=1" {} seq200 traceC10
    (Or.inl rfl) rfl
  exact ⟨h.1, h.2.trans rfl⟩
